import Mathlib

/-!
A verification development for the mpt-rs Merkle Patricia Trie.

The Rust sources are embedded shallowly:

* bytes are `Nat` (with masks and shifts written with Lean's `&&&`, `>>>`,
  `<<<`, `|||` operators; `% 256` appears where a `u8` operation can wrap);
* `Vec<u8>` is `List Nat`;
* the 32-byte Keccak digest type `KecHash = [u8; 32]` is the subtype of
  lists of length 32; the Keccak-256 function itself is an external
  primitive of the crate (the `sha3` crate), so every definition that
  hashes is parametrised by a function `keccak256 : List Nat → KecHash`;
* the backing `Database` is modelled, as in the crate's own test store
  `MapDb`, by an association list with insert-at-front / first-match-get
  (the `HashMap` overwrite semantics);
* fallible Rust code (`Result`) returns `Except Failure`; a Rust `panic!`,
  `assert!`, `unreachable!` or out-of-bounds index is the distinguished
  outcome `Failure.panicked`, kept apart from the crate's `Error` values;
* recursion that walks hash references through the store (insert / get /
  proof / RLP decoding) is not structural in Rust either - the embedded
  functions take a fuel parameter and return `Failure.outOfFuel` when it
  runs out; every theorem quantifies over, or instantiates, the fuel.

RLP and the hex-prefix encoding are implemented concretely, following the
serialization the crate performs through `serlp` (the encodings stated in
the crate's own node-format test).
-/

namespace Mpt

/-! ## Error model (src/error.rs) -/

/-- `TrieError` from src/error.rs. -/
inductive TrieError where
  | subtreeNotFound : TrieError
  deriving DecidableEq, Repr

/-- `Error` from src/error.rs. -/
inductive Error where
  | encodingError (msg : String) : Error
  | databaseError (msg : String) : Error
  | stateNotFound : Error
  | trieError (e : TrieError) : Error
  deriving DecidableEq, Repr

/-- How an embedded Rust computation can fail to return a value:
a propagated `Error` (Rust `Err`), a Rust panic (`panic!`, `assert!`,
`unreachable!`, an out-of-bounds index, `copy_from_slice` mismatch),
or exhaustion of the embedding's fuel. -/
inductive Failure where
  | rustError (e : Error) : Failure
  | panicked : Failure
  | outOfFuel : Failure
  deriving DecidableEq, Repr

/-! ## Hash and store -/

/-- `KecHash = [u8; KEY_LEN]`, `KEY_LEN = 32` (src/mpt.rs). -/
def KecHash : Type := { l : List Nat // l.length = 32 }

instance : DecidableEq KecHash := fun a b =>
  decidable_of_iff (a.val = b.val) Subtype.ext_iff.symm

/-- The abstract `Database` of src/mpt.rs, modelled as the crate's own test
database `MapDb` (tests/test_proof.rs): a map from `KecHash` to byte
strings.  Insert prepends, get takes the first match, which gives the
`HashMap` overwrite semantics. -/
def Store : Type := List (KecHash × List Nat)

/-- `Database::get`. -/
def storeGet (db : Store) (key : KecHash) : Option (List Nat) :=
  match db with
  | [] => none
  | (k, v) :: rest => if k = key then some v else storeGet rest key

/-- `Database::insert` (idempotent by key; may overwrite). -/
def storeInsert (db : Store) (key : KecHash) (value : List Nat) : Store :=
  (key, value) :: db

/-! ## Nibble algebra (src/hex_prefix.rs) -/

/-- `ODD_MASK = 0b00010000`. -/
def ODD_MASK : Nat := 16

/-- `FLAG_MASK = 0b00100000`. -/
def FLAG_MASK : Nat := 32

/-- The closure `encode_nibbles` inside `hex_prefix_encode`:
`x.chunks(2).map(|two| (two[0] << 4) | two[1])`.  It is only applied to
even-length slices (an odd-length slice would panic at `two[1]` in Rust;
the catch-all arm here is never reached from `hex_prefix_encode`). -/
def encodeNibblePairs : List Nat → List Nat
  | a :: b :: rest => (((a <<< 4) % 256) ||| b) :: encodeNibblePairs rest
  | _ => []

/-- `hex_prefix_encode` (src/hex_prefix.rs lines 17-30). -/
def hex_prefix_encode (src : List Nat) (flag : Bool) : List Nat :=
  let f : Nat := cond flag 1 0
  if src.length % 2 = 1 then
    -- res.push(((((flag as u8) << 1) | 1) << 4) | src[0])
    ((((f <<< 1) ||| 1) <<< 4) % 256 ||| src.headI) :: encodeNibblePairs src.tail
  else
    -- res.push(((flag as u8) << 1) << 4)
    (((f <<< 1) <<< 4) % 256) :: encodeNibblePairs src

/-- The per-byte map of `hex_prefix_decode`:
`|i| [(i & 0xf0) >> 4, i & 0x0f]`. -/
def decodeNibbleByte (i : Nat) : List Nat := [(i &&& 240) >>> 4, i &&& 15]

/-- `hex_prefix_decode` (src/hex_prefix.rs lines 32-47).  The Rust
function panics on an empty slice. -/
def hex_prefix_decode (src : List Nat) : Except Failure (List Nat × Bool) :=
  match src with
  | [] => .error .panicked
  | p0 :: encoded =>
    let nibbles :=
      (if p0 &&& ODD_MASK ≠ 0 then [p0 &&& 15] else []) ++
        encoded.flatMap decodeNibbleByte
    .ok (nibbles, decide (p0 &&& FLAG_MASK ≠ 0))

/-- `common_prefix` (src/hex_prefix.rs lines 49-66): the shared prefix
and the two remainders. -/
def commonPrefix : List Nat → List Nat → List Nat × List Nat × List Nat
  | a :: as_, b :: bs =>
    if a = b then
      let (s, ar, br) := commonPrefix as_ bs
      (a :: s, ar, br)
    else ([], a :: as_, b :: bs)
  | as_, bs => ([], as_, bs)

/-- `bytes_to_nibbles` (src/hex_prefix.rs lines 68-72).  The Rust body is
`[x & 0xf0 >> 4, x & 0x0f]`; Rust's `>>` binds tighter than `&`, so the
first component is `x & (0xf0 >> 4) = x & 0x0f`. -/
def bytes_to_nibbles (src : List Nat) : List Nat :=
  src.flatMap (fun x => [x &&& (240 >>> 4), x &&& 15])

/-! ## Node model (src/node.rs) -/

mutual
/-- `MptNode` (src/node.rs): `Leaf(LeafNode)`, `Extension(ExtensionNode)`,
`Branch(BranchNode)`, with each struct's fields inlined:
`LeafNode { remained, value }`, `ExtensionNode { shared, subtree }`,
`BranchNode { branchs: [Subtree; 16], value }` (the 16-slot array is a
list; every constructor in the crate builds it with 16 entries). -/
inductive MptNode where
  | leaf (remained : List Nat) (value : List Nat) : MptNode
  | ext (shared : List Nat) (subtree : Subtree) : MptNode
  | branch (branchs : List Subtree) (value : List Nat) : MptNode

/-- `Subtree` (src/node.rs): `Empty`, `Node(Box<MptNode>)`,
`NodeKey(KecHash)`. -/
inductive Subtree where
  | empty : Subtree
  | node (n : MptNode) : Subtree
  | nodeKey (h : KecHash) : Subtree
end

/-- `BranchNode::new()`: sixteen `Empty` slots and an empty value. -/
def emptyBranchs : List Subtree := List.replicate 16 .empty

/-! ## RLP encoding of nodes

The crate serializes nodes with the external `serlp` crate; the byte
format below is standard RLP (the one fixed by the crate's own
`test_extension_node` fixture in src/node.rs): strings carry a
`0x80`/`0xb7`-based header, lists a `0xc0`/`0xf7`-based header, and the
`Subtree` forms encode as `0x80` (Empty), the node's own RLP (Node), and
the RLP of the 32-byte digest (NodeKey). -/

/-- Minimal big-endian byte representation of a length (used by RLP
headers for payloads longer than 55 bytes). -/
def beBytes (n : Nat) : List Nat :=
  if h : n = 0 then [] else beBytes (n / 256) ++ [n % 256]
  decreasing_by exact Nat.div_lt_self (Nat.pos_of_ne_zero h) (by omega)

/-- An RLP length header: `short + n` for a payload of `n ≤ 55` bytes,
else the long form `longBase + len(be(n))` followed by `be(n)`. -/
def rlpLenHeader (short longBase : Nat) (n : Nat) : List Nat :=
  if n ≤ 55 then [short + n]
  else (longBase + (beBytes n).length) :: beBytes n

/-- RLP encoding of a byte string. -/
def rlpBytes (bs : List Nat) : List Nat :=
  match bs with
  | [b] => if b < 128 then [b] else [129, b]
  | _ => rlpLenHeader 128 183 bs.length ++ bs

/-- RLP encoding of a list from its already-encoded payload. -/
def rlpList (payload : List Nat) : List Nat :=
  rlpLenHeader 192 247 payload.length ++ payload

mutual
/-- RLP encoding of a node: `Leaf → [hp(remained, true), value]`,
`Extension → [hp(shared, false), child]`, `Branch → [c0, …, c15, value]`
(src/node.rs serialization impls). -/
def rlpNode : MptNode → List Nat
  | .leaf remained value =>
    rlpList (rlpBytes (hex_prefix_encode remained true) ++ rlpBytes value)
  | .ext shared subtree =>
    rlpList (rlpBytes (hex_prefix_encode shared false) ++ rlpSubtree subtree)
  | .branch branchs value =>
    rlpList (rlpSubtrees branchs ++ rlpBytes value)

/-- The concatenated encodings of a branch's child slots. -/
def rlpSubtrees : List Subtree → List Nat
  | [] => []
  | st :: rest => rlpSubtree st ++ rlpSubtrees rest

/-- The wire form of a `Subtree`: `0x80` for `Empty`, the node's RLP for
`Node`, `rlp(32-byte digest)` for `NodeKey`. -/
def rlpSubtree : Subtree → List Nat
  | .empty => [128]
  | .node n => rlpNode n
  | .nodeKey h => rlpBytes h.val
end

/-! ## RLP parsing and node decoding

`MptNode::from_rlp` goes through `serlp`'s `RlpProxy`/`RlpTree`; the
parsing below implements the same RLP reading: split a buffer into item
spans (each span keeps its header, as `RlpProxy::raw` does), read a
string's content, read a list's payload. -/

/-- Big-endian value of a length field. -/
def beNat (bs : List Nat) : Nat := bs.foldl (fun acc d => acc * 256 + d) 0

/-- A decoding failure surfaced by `serlp` maps to the crate's
`Error::EncodingError` (src/error.rs `From<serlp::error::Error>`). -/
def rlpErr : Failure := .rustError (.encodingError "rlp")

/-- Split off the first RLP item: its span (header included) and the
remaining bytes. -/
def takeSpan (bs : List Nat) : Except Failure (List Nat × List Nat) :=
  match bs with
  | [] => .error rlpErr
  | b :: rest =>
    if b < 128 then .ok ([b], rest)
    else if b ≤ 183 then
      let n := b - 128
      if n ≤ rest.length then .ok (b :: rest.take n, rest.drop n)
      else .error rlpErr
    else if b ≤ 191 then
      let ll := b - 183
      if ll ≤ rest.length then
        let n := beNat (rest.take ll)
        if n ≤ (rest.drop ll).length then
          .ok (b :: rest.take ll ++ (rest.drop ll).take n, (rest.drop ll).drop n)
        else .error rlpErr
      else .error rlpErr
    else if b ≤ 247 then
      let n := b - 192
      if n ≤ rest.length then .ok (b :: rest.take n, rest.drop n)
      else .error rlpErr
    else
      let ll := b - 247
      if ll ≤ rest.length then
        let n := beNat (rest.take ll)
        if n ≤ (rest.drop ll).length then
          .ok (b :: rest.take ll ++ (rest.drop ll).take n, (rest.drop ll).drop n)
        else .error rlpErr
      else .error rlpErr

/-- Split a list payload into the spans of its items. -/
def splitSpans (fuel : Nat) (bs : List Nat) : Except Failure (List (List Nat)) :=
  match fuel, bs with
  | _, [] => .ok []
  | 0, _ => .error .outOfFuel
  | fuel + 1, bs => do
    let (span, rest) ← takeSpan bs
    let spans ← splitSpans fuel rest
    .ok (span :: spans)

/-- The content of an item span that must be a string (how `serlp` reads
a `serde_bytes` field); a list span is a deserialization error. -/
def stringContent (span : List Nat) : Except Failure (List Nat) :=
  match span with
  | [] => .error rlpErr
  | b :: rest =>
    if b < 128 then .ok [b]
    else if b ≤ 183 then .ok (rest.take (b - 128))
    else if b ≤ 191 then
      let ll := b - 183
      .ok ((rest.drop ll).take (beNat (rest.take ll)))
    else .error rlpErr

/-- The payload of an item span that must be a list. -/
def listPayload (span : List Nat) : Except Failure (List Nat) :=
  match span with
  | [] => .error rlpErr
  | b :: rest =>
    if b < 192 then .error rlpErr
    else if b ≤ 247 then .ok (rest.take (b - 192))
    else .ok ((rest.drop (b - 247)).take (beNat (rest.take (b - 247))))

/-- `TryFrom<RlpProxy> for Subtree` (src/node.rs lines 79-98), applied to
one item span; `recur` is `from_bytes::<MptNode>`.  By span length:
`[0x80]` is `Empty`; 1 to 31 bytes decode as an inline node; 32 bytes or
more decode as a `ByteBuf` whose 32 bytes become a `NodeKey`
(`copy_from_slice` panics on any other content length); an empty span
hits the `_ => panic!` arm. -/
def decodeSubtree (recur : List Nat → Except Failure MptNode)
    (span : List Nat) : Except Failure Subtree :=
  if span = [128] then .ok .empty
  else if span.length = 0 then .error .panicked
  else if span.length ≤ 31 then do
    let n ← recur span
    .ok (.node n)
  else do
    let content ← stringContent span
    if h : content.length = 32 then .ok (.nodeKey ⟨content, h⟩)
    else .error .panicked

/-- `MptNode::from_rlp` = `from_bytes` + `TryFrom<RlpProxy> for MptNode`
(src/node.rs lines 212-244): the buffer must hold an RLP list; arity 2
with the hex-prefix flag bit clear decodes an Extension, set decodes a
Leaf (the field deserializers re-check the flag and panic on a mismatch,
src/node.rs lines 52-60 and 122-130); arity 17 decodes a Branch
(src/node.rs lines 142-169); any other arity hits
`_ => panic!("Unexpected node type.")`. -/
def from_rlp (fuel : Nat) (bs : List Nat) : Except Failure MptNode :=
  match fuel with
  | 0 => .error .outOfFuel
  | fuel + 1 => do
    match bs with
    | [] => .error rlpErr
    | b :: _ =>
      if b < 192 then .error .panicked
      else do
        let payload ← listPayload bs
        let spans ← splitSpans (payload.length + 1) payload
        match spans with
        | [s0, s1] => do
          let c0 ← stringContent s0
          match c0 with
          | [] => .error .panicked
          | n0 :: _ =>
            if n0 &&& FLAG_MASK = 0 then do
              let (shared, flag) ← hex_prefix_decode c0
              if flag then .error .panicked
              else do
                let st ← decodeSubtree (from_rlp fuel) s1
                .ok (.ext shared st)
            else do
              let (remained, flag) ← hex_prefix_decode c0
              if flag then do
                let value ← stringContent s1
                .ok (.leaf remained value)
              else .error .panicked
        | _ =>
          if spans.length = 17 then do
            let branchs ← (spans.take 16).mapM (decodeSubtree (from_rlp fuel))
            let value ← stringContent (spans.getLastD [])
            .ok (.branch branchs value)
          else .error .panicked

/-! ## Trie state (src/mpt.rs)

The `Trie` struct, with the phantom key/value types erased: the crate
serializes keys and values with `serlp::to_bytes` before the trie ever
sees them, so the operations below take the already-serialized bytes
(`rlp_key`, and the value bytes). -/

/-- `Trie { root, db, dirty, root_hash }` (src/mpt.rs lines 37-57). -/
structure Trie where
  root : Option MptNode
  db : Store
  dirty : Bool
  root_hash : Option KecHash

/-- `Trie::new(db)`. -/
def Trie.new (db : Store) : Trie :=
  { root := none, db := db, dirty := false, root_hash := none }

/-! ## Get (src/mpt.rs `node_get` / `subtree_get`) -/

/-- `subtree_get` (src/mpt.rs lines 310-326); `recur` is the `node_get`
of the enclosing fuel level and `decode` is `MptNode::from_rlp`. -/
def subtree_get
    (recur : MptNode → Store → List Nat → Except Failure (Option (List Nat)))
    (decode : List Nat → Except Failure MptNode)
    (st : Subtree) (db : Store) (key : List Nat) :
    Except Failure (Option (List Nat)) :=
  match st with
  | .empty => .ok none
  | .node n => recur n db key
  | .nodeKey dbkey =>
    match storeGet db dbkey with
    | none => .error (.rustError (.trieError .subtreeNotFound))
    | some rlp => do
      let root ← decode rlp
      recur root db key

/-- `node_get` (src/mpt.rs lines 277-308). -/
def node_get (fuel : Nat) (root : MptNode) (db : Store) (ikey : List Nat) :
    Except Failure (Option (List Nat)) :=
  match fuel with
  | 0 => .error .outOfFuel
  | fuel + 1 =>
    match root with
    | .leaf remained value =>
      if remained = ikey then .ok (some value) else .ok none
    | .ext shared subtree =>
      match commonPrefix shared ikey with
      | (_, [], key_remained) =>
        subtree_get (node_get fuel) (from_rlp fuel) subtree db key_remained
      | _ => .ok none
    | .branch branchs value =>
      match ikey with
      | [] => .ok (some value)
      | idx :: key_remained =>
        if h : idx < branchs.length then
          subtree_get (node_get fuel) (from_rlp fuel) (branchs.get ⟨idx, h⟩)
            db key_remained
        else .error .panicked

/-- `Trie::get` (src/mpt.rs lines 105-118), on the serialized key. -/
def Trie.get (fuel : Nat) (t : Trie) (rlp_key : List Nat) :
    Except Failure (Option (List Nat)) :=
  match t.root with
  | some root => node_get fuel root t.db (bytes_to_nibbles rlp_key)
  | none => .ok none

/-! ## Insert (src/mpt.rs `node_insert` / `subtree_insert`) -/

/-- `subtree_insert` (src/mpt.rs lines 428-452): the result is always
re-wrapped as `Subtree::Node`. -/
def subtree_insert
    (recur : MptNode → Store → List Nat → List Nat → Except Failure MptNode)
    (decode : List Nat → Except Failure MptNode)
    (st : Subtree) (db : Store) (key value : List Nat) :
    Except Failure Subtree :=
  match st with
  | .empty => .ok (.node (.leaf key value))
  | .node n => do
    let n' ← recur n db key value
    .ok (.node n')
  | .nodeKey dbkey =>
    match storeGet db dbkey with
    | none => .error (.rustError (.trieError .subtreeNotFound))
    | some rlp => do
      let root ← decode rlp
      let n' ← recur root db key value
      .ok (.node n')

/-- `node_insert` (src/mpt.rs lines 330-426).  The Extension arm models
the `assert!(shared.len() > 0)` as a panic outcome, and the branch-slot
indexings panic when the nibble is out of range, as in Rust. -/
def node_insert (fuel : Nat) (root : MptNode) (db : Store)
    (ikey ivalue : List Nat) : Except Failure MptNode :=
  match fuel with
  | 0 => .error .outOfFuel
  | fuel + 1 =>
    match root with
    | .branch branchs value =>
      match ikey with
      | [] => .ok (.branch branchs ivalue)
      | idx :: key =>
        if h : idx < branchs.length then do
          let st' ← subtree_insert (node_insert fuel) (from_rlp fuel)
            (branchs.get ⟨idx, h⟩) db key ivalue
          .ok (.branch (branchs.set idx st') value)
        else .error .panicked
    | .leaf remained leaf_value =>
      match commonPrefix ikey remained with
      | (_, [], []) => .ok (.leaf remained ivalue)
      | (shared, key_remained, leaf_remained) => do
        let b1 ← node_insert fuel (.branch emptyBranchs []) db
          key_remained ivalue
        let b2 ← node_insert fuel b1 db leaf_remained leaf_value
        if shared.isEmpty then .ok b2
        else .ok (.ext shared (.node b2))
    | .ext shared subtree =>
      if shared.isEmpty then .error .panicked
      else
        match commonPrefix ikey shared with
        | (_, key_remained, []) => do
          let st' ← subtree_insert (node_insert fuel) (from_rlp fuel)
            subtree db key_remained ivalue
          .ok (.ext shared st')
        | (s, key_remained, idx :: shared_remained) =>
          if idx < 16 then do
            let st0 : Subtree :=
              if shared_remained.isEmpty then subtree
              else .node (.ext shared_remained subtree)
            let b ← node_insert fuel (.branch (emptyBranchs.set idx st0) [])
              db key_remained ivalue
            if s.isEmpty then .ok b
            else .ok (.ext s (.node b))
          else .error .panicked

/-- `Trie::insert` (src/mpt.rs lines 86-103), on the serialized key and
value bytes. -/
def Trie.insert (fuel : Nat) (t : Trie) (rlp_key value : List Nat) :
    Except Failure Trie := do
  let ikey := bytes_to_nibbles rlp_key
  let root' ←
    match t.root with
    | some root => node_insert fuel root t.db ikey value
    | none => .ok (.leaf ikey value)
  .ok { root := some root', db := t.db, dirty := true,
        root_hash := t.root_hash }

/-! ## Commit / collapse (src/mpt.rs)

`keccak256` is the external `sha3` primitive; every hashing definition is
parametrised by it. -/

section Hashing

variable (keccak256 : List Nat → KecHash)

/-- The tail of `node_collapse` after the `match root` (src/mpt.rs
lines 208-214): encode the rebuilt node, hash it, store it, return a
`NodeKey`.  The source `assert!(rlp.len() >= 32)` sits here; theorem
`collapse_keeps_32` proves it can never fail. -/
def finish_collapse (nc : MptNode) (db : Store) : Subtree × Store :=
  let rlp' := rlpNode nc
  let dbkey := keccak256 rlp'
  (.nodeKey dbkey, storeInsert db dbkey rlp')

mutual
/-- `node_collapse` (src/mpt.rs lines 179-215): a node whose RLP is
shorter than 32 bytes is kept inline; otherwise its children are
collapsed (`match root`: a Leaf is unchanged, a Branch collapses every
slot, an Extension collapses its subtree) and the rebuilt node is stored
under its hash and replaced by a `NodeKey`. -/
def node_collapse (n : MptNode) (db : Store) : Subtree × Store :=
  if (rlpNode n).length < 32 then (.node n, db)
  else
    match n with
    | .leaf remained value =>
      finish_collapse keccak256 (.leaf remained value) db
    | .branch branchs value =>
      let (branchs', db') := collapse_subtrees branchs db
      finish_collapse keccak256 (.branch branchs' value) db'
    | .ext shared subtree =>
      let (st', db') := subtree_collapse subtree db
      finish_collapse keccak256 (.ext shared st') db'

/-- Collapsing each slot of a branch in order, threading the store. -/
def collapse_subtrees : List Subtree → Store → List Subtree × Store
  | [], db => ([], db)
  | st :: rest, db =>
    let (st', db') := subtree_collapse st db
    let (rest', db'') := collapse_subtrees rest db'
    (st' :: rest', db'')

/-- `subtree_collapse` (src/mpt.rs lines 217-225): only `Node` children
are collapsed; `Empty` and `NodeKey` pass through. -/
def subtree_collapse : Subtree → Store → Subtree × Store
  | .node n, db => node_collapse n db
  | st, db => (st, db)
end

/-- The `match root` body of `node_collapse` in isolation (the node
`node_collapsed` of src/mpt.rs lines 190-206, whose re-encoding the
source asserts to be at least 32 bytes): the input node with each of its
subtrees collapsed. -/
def collapse_children (n : MptNode) (db : Store) : MptNode × Store :=
  match n with
  | .leaf remained value => (.leaf remained value, db)
  | .branch branchs value =>
    let (branchs', db') := collapse_subtrees keccak256 branchs db
    (.branch branchs' value, db')
  | .ext shared subtree =>
    let (st', db') := subtree_collapse keccak256 subtree db
    (.ext shared st', db')

/-- `Trie::commit` (src/mpt.rs lines 124-155). -/
def commit (fuel : Nat) (t : Trie) : Except Failure (Option KecHash × Trie) :=
  if t.dirty = false then .ok (t.root_hash, t)
  else
    match t.root with
    | some root =>
      match node_collapse keccak256 root t.db with
      | (.node n, db') =>
        let rlp := rlpNode n
        let dbkey := keccak256 rlp
        .ok (some dbkey,
          { root := some n, db := storeInsert db' dbkey rlp,
            dirty := false, root_hash := some dbkey })
      | (.nodeKey dbkey, db') =>
        match storeGet db' dbkey with
        | none => .error (.rustError (.trieError .subtreeNotFound))
        | some rlp => do
          let node ← from_rlp fuel rlp
          .ok (some dbkey,
            { root := some node, db := db', dirty := false,
              root_hash := some dbkey })
      | (.empty, _) => .error .panicked
    | none =>
      .ok (none, { root := none, db := t.db, dirty := false,
                   root_hash := none })

/-! ## Revert (src/mpt.rs lines 76-84) -/

/-- `Trie::revert`: loads the stored root node and clears `dirty`; note
that the source never assigns `self.root_hash`, so the field keeps its
previous value. -/
def Trie.revert (fuel : Nat) (t : Trie) (root_hash : KecHash) :
    Except Failure Trie :=
  match storeGet t.db root_hash with
  | some rlp => do
    let root ← from_rlp fuel rlp
    .ok { root := some root, db := t.db, dirty := false,
          root_hash := t.root_hash }
  | none => .error (.rustError .stateNotFound)

/-! ## Proofs (src/mpt.rs `node_proof` / `subtree_proof`, src/proof.rs) -/

/-- `subtree_proof` (src/mpt.rs lines 259-274). -/
def subtree_proof
    (recur : MptNode → Store → Store → List Nat →
      Except Failure (Bool × Store))
    (decode : List Nat → Except Failure MptNode)
    (st : Subtree) (db : Store) (proof : Store) (ikey : List Nat) :
    Except Failure (Bool × Store) :=
  match st with
  | .empty => .ok (false, proof)
  | .node n => recur n db proof ikey
  | .nodeKey dbkey =>
    match storeGet db dbkey with
    | none => .error (.rustError (.trieError .subtreeNotFound))
    | some rlp => do
      let root ← decode rlp
      recur root db proof ikey

/-- `node_proof` (src/mpt.rs lines 227-257): every visited node is added
to the proof store under its hash; a Branch reached with an empty
remaining key answers `false`. -/
def node_proof (fuel : Nat) (root : MptNode) (db : Store) (proof : Store)
    (ikey : List Nat) : Except Failure (Bool × Store) :=
  match fuel with
  | 0 => .error .outOfFuel
  | fuel + 1 =>
    let rlp := rlpNode root
    let proof' := storeInsert proof (keccak256 rlp) rlp
    match root with
    | .leaf remained _ =>
      .ok (decide (remained = ikey), proof')
    | .ext shared subtree =>
      match commonPrefix shared ikey with
      | (_, [], key_remained) =>
        subtree_proof (node_proof fuel) (from_rlp fuel) subtree db proof'
          key_remained
      | _ => .ok (false, proof')
    | .branch branchs _ =>
      match ikey with
      | [] => .ok (false, proof')
      | idx :: key_remained =>
        if h : idx < branchs.length then
          subtree_proof (node_proof fuel) (from_rlp fuel)
            (branchs.get ⟨idx, h⟩) db proof' key_remained
        else .error .panicked

/-- `Trie::get_proof` (src/mpt.rs lines 157-174): commit first when
dirty, then walk with a fresh proof store. -/
def get_proof (fuel : Nat) (t : Trie) (rlp_key : List Nat) :
    Except Failure ((Store × Bool) × Trie) := do
  let t' ←
    if t.dirty then do
      let (_, t') ← commit keccak256 fuel t
      pure t'
    else pure t
  let ikey := bytes_to_nibbles rlp_key
  match t'.root with
  | some root => do
    let (exists_, proof) ← node_proof keccak256 fuel root t'.db [] ikey
    .ok ((proof, exists_), t')
  | none => .ok (([], false), t')

end Hashing

/-- `verify_proof` (src/proof.rs lines 7-22): fetch the root node from
the proof store and run the `node_get` walk against the proof store. -/
def verify_proof (fuel : Nat) (root_hash : KecHash) (proof : Store)
    (rlp_key : List Nat) : Except Failure Bool :=
  let ikey := bytes_to_nibbles rlp_key
  match storeGet proof root_hash with
  | some rlp => do
    let root ← from_rlp fuel rlp
    let value ← node_get fuel root proof ikey
    .ok value.isSome
  | none => .ok false

/-! ## A concrete stand-in for the external Keccak-256 primitive, used by
the concrete executions below (any function of this type works for the
general theorems). -/

/-- A concrete 32-byte digest function (pad with zeros, truncate to 32):
enough to separate the small encodings the concrete runs hash. -/
def mock_keccak (bs : List Nat) : KecHash :=
  ⟨(bs ++ List.replicate 32 0).take 32, by
    simp [List.length_take, List.length_append]⟩

/-! ## Concrete runs used by claims C4, C5 and C7

A run through the public interface: insert `[0x01] ↦ [0x41]`, commit
(root hash `h1`), insert `[0x01] ↦ [0x42]`, commit (root hash `h2`),
then revert to `h1`. -/

/-- The reverted trie of the C4 run. -/
def reverted_pipeline : Except Failure Trie := do
  let t1 ← Trie.insert 9 (Trie.new []) [1] [65]
  let (r1, t1c) ← commit mock_keccak 9 t1
  let t2 ← Trie.insert 9 t1c [1] [66]
  let (_, t2c) ← commit mock_keccak 9 t2
  match r1 with
  | some h1 => Trie.revert 9 t2c h1
  | none => .error .panicked

/-- A committed trie in which the nibble path of the key `[0x11]` ends
exactly at a Branch node holding the value `[0x41]`: insert
`[0x11] ↦ [0x41]` (path `[1,1]`), insert `[0x01, 0x01] ↦ [0x42]`
(path `[1,1,1,1]`), commit. -/
def branch_pipeline : Except Failure Trie := do
  let t1 ← Trie.insert 9 (Trie.new []) [17] [65]
  let t2 ← Trie.insert 9 t1 [1, 1] [66]
  let (_, t2c) ← commit mock_keccak 9 t2
  pure t2c


/-! # Theorems -/

/-! ## Hex-prefix round-trip (claim C3) -/

theorem pair_decode : ∀ a < 16, ∀ b < 16,
    (((a <<< 4) % 256 ||| b) &&& 240) >>> 4 = a ∧
      ((a <<< 4) % 256 ||| b) &&& 15 = b := by decide

theorem decode_encodeNibblePairs :
    ∀ l : List Nat, (∀ x ∈ l, x < 16) → l.length % 2 = 0 →
      (encodeNibblePairs l).flatMap decodeNibbleByte = l
  | [], _, _ => by simp [encodeNibblePairs]
  | [_], _, he => by simp at he
  | a :: b :: rest, hl, he => by
    have ha : a < 16 := hl a (by simp)
    have hb : b < 16 := hl b (by simp)
    have hab := pair_decode a ha b hb
    have ih := decode_encodeNibblePairs rest (fun x hx => hl x (by simp [hx]))
      (by simp only [List.length_cons] at he ⊢; omega)
    simp only [encodeNibblePairs, List.flatMap_cons, decodeNibbleByte]
    rw [ih, hab.1, hab.2]
    simp

theorem odd_first_byte : ∀ f : Bool, ∀ s0 < 16,
    ((((cond f 1 0) <<< 1) ||| 1) <<< 4 % 256 ||| s0) &&& 16 ≠ 0 ∧
      ((((cond f 1 0) <<< 1) ||| 1) <<< 4 % 256 ||| s0) &&& 15 = s0 ∧
      (decide (((((cond f 1 0) <<< 1) ||| 1) <<< 4 % 256 ||| s0) &&& 32 ≠ 0))
        = f := by decide

theorem even_first_byte : ∀ f : Bool,
    ((cond f 1 0) <<< 1) <<< 4 % 256 &&& 16 = 0 ∧
      (decide ((((cond f 1 0) <<< 1) <<< 4 % 256) &&& 32 ≠ 0)) = f := by
  decide

/-- C3: for every nibble sequence `p` (each element below 16) and every
flag `f`, `hex_prefix_decode (hex_prefix_encode p f)` returns exactly
`(p, f)`. -/
theorem hex_prefix_roundtrip (p : List Nat) (f : Bool)
    (hp : ∀ x ∈ p, x < 16) :
    hex_prefix_decode (hex_prefix_encode p f) = .ok (p, f) := by
  rcases Nat.even_or_odd p.length with hev | hodd
  · have he : p.length % 2 = 0 := Nat.even_iff.mp hev
    have hne : ¬ p.length % 2 = 1 := by omega
    have hfb := even_first_byte f
    unfold hex_prefix_encode
    rw [if_neg hne]
    simp only [hex_prefix_decode, ODD_MASK, FLAG_MASK,
      decode_encodeNibblePairs p hp he, hfb.1, hfb.2]
    simp
  · have ho : p.length % 2 = 1 := Nat.odd_iff.mp hodd
    match p with
    | [] => simp at ho
    | s0 :: rest =>
      have hs0 : s0 < 16 := hp s0 (by simp)
      have hfb := odd_first_byte f s0 hs0
      have hr : rest.length % 2 = 0 := by
        simp only [List.length_cons] at ho; omega
      unfold hex_prefix_encode
      rw [if_pos ho]
      simp only [List.headI, List.tail_cons, hex_prefix_decode, ODD_MASK,
        FLAG_MASK,
        decode_encodeNibblePairs rest (fun x hx => hp x (by simp [hx])) hr,
        hfb.2.1, hfb.2.2]
      simp [hfb.1]

/-- Witness for C3 at the concrete nibble path `[1, 2, 3]` with flag
`true`. -/
theorem hex_prefix_roundtrip_witness :
    (∀ x ∈ [1, 2, 3], x < 16) ∧
      hex_prefix_decode (hex_prefix_encode [1, 2, 3] true) =
        .ok ([1, 2, 3], true) :=
  ⟨by decide, hex_prefix_roundtrip [1, 2, 3] true (by decide)⟩

/-! ## The nibble-conversion slip (claim C2) -/

/-- C2: the claim says `bytes_to_nibbles` splits each byte high nibble
first: element `2i` should be `bs[i] >> 4`.  On the byte `0x61` the code
produces `[1, 1]` (the low nibble twice), not `[6, 1]`: precedence makes
`x & 0xf0 >> 4` equal `x & 0x0f`. -/
theorem bytes_to_nibbles_low_nibble_slip :
    bytes_to_nibbles [97] = [1, 1] ∧
      [97 >>> 4, 97 &&& 15] = [6, 1] ∧
      bytes_to_nibbles [97] ≠ [6, 1] := by decide

/-! ## Claim C1: insert-get -/

/-- C1: with pairwise distinct serialized keys `[0x01]` and `[0x11]`
(the serlp encodings of `1u8` and `17u8`), get on the first key returns
the value inserted for the second: `bytes_to_nibbles` sends both keys to
the nibble path `[1, 1]`, so the claim that get returns the value
most recently inserted for that key fails on the code. -/
theorem insert_get_wrong_value :
    (do
      let t1 ← Trie.insert 9 (Trie.new []) [1] [65]
      let t2 ← Trie.insert 9 t1 [17] [66]
      Trie.get 9 t2 [1]) = .ok (some [66]) ∧
      bytes_to_nibbles [1] = bytes_to_nibbles [17] ∧
      ([1] : List Nat) ≠ [17] ∧ ([66] : List Nat) ≠ [65] :=
  ⟨rfl, rfl, by decide, by decide⟩

/-! ## Claims C4 and C5: revert and proof verification -/

/-- C4: reverting to `h1 = keccak(rlp(Leaf([1,1], [0x41])))` succeeds,
loads the in-memory root from the bytes stored at `h1` and clears
`dirty`, but leaves `root_hash` at the previous commit's `h2 ≠ h1`: the
source never assigns `self.root_hash`.  Reverting on an empty store
fails with `StateNotFound`, as claimed. -/
theorem revert_keeps_stale_root_hash :
    (reverted_pipeline >>= fun t => pure (t.root, t.dirty, t.root_hash)) =
      .ok (some (.leaf [1, 1] [65]), false,
        some (mock_keccak [196, 130, 32, 17, 66])) ∧
      from_rlp 9 [196, 130, 32, 17, 65] = .ok (.leaf [1, 1] [65]) ∧
      mock_keccak [196, 130, 32, 17, 66] ≠ mock_keccak [196, 130, 32, 17, 65] ∧
      Trie.revert 9 (Trie.new []) (mock_keccak [196, 130, 32, 17, 65]) =
        .error (.rustError .stateNotFound) :=
  ⟨rfl, rfl, by decide, rfl⟩

/-- C5: the reverted trie is committed in the claim's sense
(`dirty = false`, a recorded root hash), yet verifying the proof
produced for the key `[0x01]` against the trie's `root_hash` returns
`false` while `get` returns a value: the stale `root_hash` left behind
by `revert` is the hash of no node in the proof store. -/
theorem verify_disagrees_with_get :
    (reverted_pipeline >>= fun t => pure (t.dirty, t.root_hash.isSome)) =
      .ok (false, true) ∧
      (do
        let tr ← reverted_pipeline
        let ((proof, _), tr') ← get_proof mock_keccak 9 tr [1]
        match tr'.root_hash with
        | some rh => do
          let v ← verify_proof 9 rh proof [1]
          let g ← Trie.get 9 tr' [1]
          pure (v, g.isSome)
        | none => .error .panicked) = .ok (false, true) :=
  ⟨rfl, rfl⟩

/-- Supporting fact for C5: on a trie committed by `commit` itself (no
revert), verification does agree with get - for the present key `[0x11]`
both give true, for the absent key `[0x02]` both give false (while the
`exists` flag of `get_proof` disagrees on the present key, see C7).  The
C5 failure is precisely the stale `root_hash` left by `revert`. -/
theorem verify_agrees_on_committed :
    (do
      let t ← branch_pipeline
      let ((proof, ex1), t') ← get_proof mock_keccak 9 t [17]
      match t'.root_hash with
      | some rh => do
        let v1 ← verify_proof 9 rh proof [17]
        let g1 ← Trie.get 9 t' [17]
        let ((proof2, ex2), t2) ← get_proof mock_keccak 9 t' [2]
        let v2 ← verify_proof 9 rh proof2 [2]
        let g2 ← Trie.get 9 t2 [2]
        pure (v1, g1.isSome, ex1, v2, g2.isSome, ex2)
      | none => .error .panicked) =
      .ok (true, true, false, false, false, false) := rfl

/-! ## Claim C7: the `exists` flag of `get_proof` -/

/-- C7: on the committed trie of `branch_pipeline`, `get_proof` for the
key `[0x11]` returns `exists = false` although `get` returns
`Some([0x41])`: `node_proof` answers `false` whenever the remaining key
is empty at a Branch, without looking at the branch value, so
`exists = get(k).is_some()` fails on the code. -/
theorem get_proof_flag_disagrees_with_get :
    (branch_pipeline >>= fun t => pure (t.dirty, t.root_hash.isSome)) =
      .ok (false, true) ∧
      (do
        let t ← branch_pipeline
        let ((_, exists_), t') ← get_proof mock_keccak 9 t [17]
        let g ← Trie.get 9 t' [17]
        pure (exists_, g)) = .ok (false, some [65]) :=
  ⟨rfl, rfl⟩

/-! ## Claim C8: decoding a list of bad arity -/

/-- C8: the four bytes `c3 80 80 80` are the RLP list of three empty
strings, arity 3; decoding them as a node hits
`_ => panic!("Unexpected node type.")` (src/node.rs line 238), a panic,
not the `EncodingError` result the claim requires. -/
theorem decode_bad_arity_panics :
    from_rlp 9 [195, 128, 128, 128] = .error .panicked ∧
      splitSpans 4 [128, 128, 128] = .ok [[128], [128], [128]] ∧
      ∀ msg, (Except.error .panicked : Except Failure MptNode) ≠
        .error (.rustError (.encodingError msg)) :=
  ⟨rfl, rfl, fun msg => by simp⟩

/-! ## Claim C9: insert is a pure in-memory rewrite -/

/-- C9: a successful insert returns a trie whose `dirty` flag is true
and whose store is unchanged; `node_insert` and `subtree_insert` only
ever read the store (`db.get`), never write it, and `Trie::insert`
rebuilds the trie around the same `db`. -/
theorem insert_frame (fuel : Nat) (t : Trie) (rlp_key value : List Nat)
    (t' : Trie) (h : Trie.insert fuel t rlp_key value = .ok t') :
    t'.dirty = true ∧ t'.db = t.db := by
  unfold Trie.insert at h
  cases ht : t.root with
  | none =>
    rw [ht] at h
    simp only [bind, Except.bind] at h
    injection h with h
    subst h
    exact ⟨rfl, rfl⟩
  | some root =>
    rw [ht] at h
    simp only [bind, Except.bind] at h
    cases hni : node_insert fuel root t.db (bytes_to_nibbles rlp_key) value with
    | error e => rw [hni] at h; exact absurd h (by simp)
    | ok root' =>
      rw [hni] at h
      injection h with h
      subst h
      exact ⟨rfl, rfl⟩

/-- Witness for C9: inserting `[0x01] ↦ [0x02]` into the empty trie. -/
theorem insert_frame_witness :
    (Trie.mk (some (.leaf [1, 1] [2])) [] true none).dirty = true ∧
      (Trie.mk (some (.leaf [1, 1] [2])) [] true none).db = (Trie.new []).db :=
  insert_frame 9 (Trie.new []) [1] [2]
    (Trie.mk (some (.leaf [1, 1] [2])) [] true none) rfl

/-! ## Claim C6: commit idempotence -/

/-- Any successful commit leaves `dirty = false` and records exactly the
returned root hash. -/
theorem commit_ok_state (keccak256 : List Nat → KecHash) (fuel : Nat)
    (t : Trie) (r : Option KecHash) (t' : Trie)
    (h : commit keccak256 fuel t = .ok (r, t')) :
    t'.dirty = false ∧ t'.root_hash = r := by
  unfold commit at h
  by_cases hd : t.dirty = false
  · rw [if_pos hd] at h
    injection h with h
    rw [Prod.mk.injEq] at h
    obtain ⟨h1, h2⟩ := h
    subst h2
    exact ⟨hd, h1.symm ▸ rfl⟩
  · rw [if_neg hd] at h
    split at h
    · split at h
      · injection h with h
        rw [Prod.mk.injEq] at h
        obtain ⟨h1, h2⟩ := h
        subst h2
        exact ⟨rfl, h1 ▸ rfl⟩
      · split at h
        · exact absurd h (by simp)
        · simp only [bind, Except.bind] at h
          cases hfr : from_rlp fuel _ with
          | error e => rw [hfr] at h; exact absurd h (by simp)
          | ok node =>
            rw [hfr] at h
            injection h with h
            rw [Prod.mk.injEq] at h
            obtain ⟨h1, h2⟩ := h
            subst h2
            exact ⟨rfl, h1 ▸ rfl⟩
      · exact absurd h (by simp)
    · injection h with h
      rw [Prod.mk.injEq] at h
      obtain ⟨h1, h2⟩ := h
      subst h2
      exact ⟨rfl, h1 ▸ rfl⟩

/-- C6: commit is idempotent.  If a commit succeeds with root hash `r`
and resulting trie `t'`, then a second commit (any fuel) returns the
same root hash and the very same trie - in particular the same store:
the cleared `dirty` flag short-circuits it. -/
theorem commit_idempotent (keccak256 : List Nat → KecHash)
    (fuel fuel' : Nat) (t : Trie) (r : Option KecHash) (t' : Trie)
    (h : commit keccak256 fuel t = .ok (r, t')) :
    commit keccak256 fuel' t' = .ok (r, t') := by
  obtain ⟨hd, hr⟩ := commit_ok_state keccak256 fuel t r t' h
  unfold commit
  rw [if_pos hd, hr]

/-- Witness for C6 on the empty trie. -/
theorem commit_idempotent_witness :
    commit mock_keccak 7 (Trie.new []) = .ok (none, Trie.new []) :=
  commit_idempotent mock_keccak 5 7 (Trie.new []) none (Trie.new []) rfl

/-! ## Claim C10: the size assertion in `node_collapse` -/

theorem rlpLenHeader_length_pos (s l n : Nat) :
    1 ≤ (rlpLenHeader s l n).length := by
  unfold rlpLenHeader; split <;> simp

theorem rlpLenHeader_length_short (s l n : Nat) (h : n ≤ 55) :
    (rlpLenHeader s l n).length = 1 := by
  simp [rlpLenHeader, h]

theorem rlpList_length (p : List Nat) :
    (rlpList p).length = (rlpLenHeader 192 247 p.length).length + p.length := by
  simp [rlpList]

/-- An RLP list of at least 32 bytes has a payload of at least 31. -/
theorem rlpList_payload_ge (p : List Nat) (h : 32 ≤ (rlpList p).length) :
    31 ≤ p.length := by
  by_cases hp : p.length ≤ 55
  · rw [rlpList_length, rlpLenHeader_length_short _ _ _ hp] at h; omega
  · omega

/-- An RLP list over a payload of at least 31 bytes is at least 32 bytes. -/
theorem rlpList_ge_of_payload (p : List Nat) (h : 31 ≤ p.length) :
    32 ≤ (rlpList p).length := by
  rw [rlpList_length]
  have := rlpLenHeader_length_pos 192 247 p.length
  omega

/-- The RLP of a 32-byte string is 33 bytes (`0xa0` header). -/
theorem rlpBytes_len_32 (bs : List Nat) (h : bs.length = 32) :
    (rlpBytes bs).length = 33 := by
  match bs, h with
  | a :: b :: rest, h =>
    simp only [rlpBytes, List.length_append]
    rw [h, rlpLenHeader_length_short _ _ _ (by omega)]

/-- A node whose encoding is below the 32-byte limit is left inline. -/
theorem node_collapse_small (keccak256 : List Nat → KecHash) (n : MptNode)
    (db : Store) (h : (rlpNode n).length < 32) :
    node_collapse keccak256 n db = (.node n, db) := by
  cases n <;> simp [node_collapse, h]

/-- `node_collapse` on a large node is exactly `finish_collapse` of
`collapse_children`. -/
theorem node_collapse_eq_children (keccak256 : List Nat → KecHash)
    (n : MptNode) (db : Store) (h : ¬ (rlpNode n).length < 32) :
    node_collapse keccak256 n db =
      finish_collapse keccak256 (collapse_children keccak256 n db).1
        (collapse_children keccak256 n db).2 := by
  cases n <;> simp [node_collapse, collapse_children, h]

/-- Collapsing a subtree can only shrink its wire form down to the
33 bytes of a hash reference: the new length is at least the old one
capped at 33. -/
theorem subtree_collapse_min (keccak256 : List Nat → KecHash)
    (st : Subtree) (db : Store) :
    min (rlpSubtree st).length 33 ≤
      (rlpSubtree (subtree_collapse keccak256 st db).1).length := by
  cases st with
  | empty => simp [subtree_collapse]
  | nodeKey h => simp [subtree_collapse]
  | node n =>
    simp only [subtree_collapse]
    by_cases h32 : (rlpNode n).length < 32
    · rw [node_collapse_small keccak256 n db h32]
      exact Nat.min_le_left _ _
    · rw [node_collapse_eq_children keccak256 n db h32]
      simp only [finish_collapse, rlpSubtree]
      rw [rlpBytes_len_32 _ (keccak256 _).2]
      exact Nat.min_le_right _ _

/-- The payload contributed by a branch's collapsed slots is at least
the old payload capped at 33. -/
theorem collapse_subtrees_min (keccak256 : List Nat → KecHash)
    (bs : List Subtree) : ∀ db : Store,
    min (rlpSubtrees bs).length 33 ≤
      (rlpSubtrees (collapse_subtrees keccak256 bs db).1).length := by
  induction bs with
  | nil => intro db; simp [collapse_subtrees]
  | cons st rest ih =>
    intro db
    rcases h1 : subtree_collapse keccak256 st db with ⟨st1, db1⟩
    rcases h2 : collapse_subtrees keccak256 rest db1 with ⟨rest1, db2⟩
    have ha := subtree_collapse_min keccak256 st db
    rw [h1] at ha
    have hr := ih db1
    rw [h2] at hr
    rw [collapse_subtrees, h1]
    simp only [h2, rlpSubtrees, List.length_append]
    simp only [rlpSubtrees, List.length_append] at ha hr ⊢
    omega

/-- C10: the `assert!(rlp.len() >= 32)` in `node_collapse` never fails:
for every node whose own RLP encoding is at least 32 bytes, the node
rebuilt from its collapsed subtrees (`collapse_children`, with every
child of encoding length at least 32 replaced by its 33-byte hash
reference) still encodes to at least 32 bytes, so commit never panics
at this assertion. -/
theorem collapse_keeps_32 (keccak256 : List Nat → KecHash) (n : MptNode)
    (db : Store) (h : 32 ≤ (rlpNode n).length) :
    32 ≤ (rlpNode (collapse_children keccak256 n db).1).length := by
  cases n with
  | leaf r v => simpa [collapse_children] using h
  | ext sh st =>
    rcases hsc : subtree_collapse keccak256 st db with ⟨st1, db1⟩
    have hmin := subtree_collapse_min keccak256 st db
    rw [hsc] at hmin
    dsimp only at hmin
    rw [collapse_children, hsc]
    dsimp only
    have h31 := rlpList_payload_ge _ (by simpa only [rlpNode] using h)
    simp only [List.length_append] at h31
    simp only [rlpNode]
    apply rlpList_ge_of_payload
    simp only [List.length_append]
    omega
  | branch bs v =>
    rcases hsc : collapse_subtrees keccak256 bs db with ⟨bs1, db1⟩
    have hmin := collapse_subtrees_min keccak256 bs db
    rw [hsc] at hmin
    dsimp only at hmin
    rw [collapse_children, hsc]
    dsimp only
    have h31 := rlpList_payload_ge _ (by simpa only [rlpNode] using h)
    simp only [List.length_append] at h31
    simp only [rlpNode]
    apply rlpList_ge_of_payload
    simp only [List.length_append]
    omega

/-- Witness for C10 at a leaf with a 40-byte value (45-byte RLP). -/
theorem collapse_keeps_32_witness :
    32 ≤ (rlpNode (.leaf [1, 1] (List.replicate 40 7))).length ∧
      32 ≤ (rlpNode (collapse_children mock_keccak
        (.leaf [1, 1] (List.replicate 40 7)) []).1).length :=
  ⟨by decide, collapse_keeps_32 mock_keccak _ [] (by decide)⟩

end Mpt
